import Mathlib

/-!
Shallow embedding of `assist_microphone/hass_satellite/vad.py`.

The module defines a voice-activity-detection interface with two
implementations:
- `SileroVoiceActivityDetector`: wraps an onnxruntime inference session
  and carries recurrent state tensors `h` and `c` between calls;
- `WebrtcVoiceActivityDetector`: wraps the webrtcvad binary classifier.

Modelling conventions:
- raw audio bytes are `List (Fin 256)`;
- numpy arrays are `Tensor` records holding a dtype tag, a shape and a
  flat list of rational data values (real arithmetic is modelled over ℚ);
- the onnxruntime session and the webrtcvad classifier are external
  collaborators, so they appear as abstract function-valued records;
- `np.frombuffer` raising on a buffer whose length is not a multiple of
  the element size is modelled as `Except.error MalformedAudioFrame`.
-/

/-- dtype tags carried by numpy arrays in the module. -/
inductive DType where
  | int16
  | int64
  | float32
  deriving DecidableEq

/-- A numpy array: dtype tag, shape, and flat data (row-major). -/
structure Tensor where
  dtype : DType
  shape : List Nat
  data : List ℚ
  deriving DecidableEq

/-- Embeds `np.zeros(shape).astype("float32")`. -/
def npZerosF32 (shape : List Nat) : Tensor :=
  ⟨DType.float32, shape, List.replicate shape.prod 0⟩

/-- Embeds `.astype(np.float32)`: retags the dtype, data unchanged. -/
def Tensor.astypeFloat32 (t : Tensor) : Tensor :=
  { t with dtype := DType.float32 }

/-- Embeds elementwise division of an array by a scalar. -/
def Tensor.divScalar (t : Tensor) (q : ℚ) : Tensor :=
  { t with data := t.data.map (fun x => x / q) }

/-- Embeds `np.expand_dims(a, 0)`: prepends a batch axis of size 1. -/
def Tensor.expandDims0 (t : Tensor) : Tensor :=
  { t with shape := 1 :: t.shape }

/-- Embeds `a.squeeze()`: removes every axis of size 1. -/
def Tensor.squeeze (t : Tensor) : Tensor :=
  { t with shape := t.shape.filter (fun d => d ≠ 1) }

/-- Signed 16-bit little-endian value of a byte pair. -/
def int16OfPair (lo hi : Fin 256) : Int :=
  let v : Int := (lo : Int) + 256 * (hi : Int)
  if v < 32768 then v else v - 65536

/-- Decodes a byte list into consecutive little-endian int16 samples. -/
def decodeInt16 : List (Fin 256) → List Int
  | lo :: hi :: rest => int16OfPair lo hi :: decodeInt16 rest
  | _ => []

/-- Error conditions surfaced by the detectors. -/
inductive VadError where
  | MalformedAudioFrame
  deriving DecidableEq

/-- Embeds `np.frombuffer(audio, dtype=np.int16)`: fails when the byte
length is not a multiple of the element size 2, otherwise yields a rank-1
int16 array of the decoded samples. -/
def npFrombufferInt16 (audio : List (Fin 256)) : Except VadError Tensor :=
  if audio.length % 2 = 0 then
    Except.ok ⟨DType.int16, [audio.length / 2], (decodeInt16 audio).map (fun z => (z : ℚ))⟩
  else
    Except.error VadError.MalformedAudioFrame

/-- Embeds the module constant `_RATE = 16000`. -/
def _RATE : Nat := 16000

/-- Embeds `np.array(_RATE, dtype=np.int64)`: a 0-dimensional int64 scalar. -/
def srTensor : Tensor :=
  ⟨DType.int64, [], [(_RATE : ℚ)]⟩

/-- The onnxruntime inference session, an external collaborator. `run`
abstracts `session.run(None, ort_inputs)` where the dict carries the four
named inputs in the order input, h, c, sr; it yields the three outputs
out, h, c. The two thread-count attributes are plain mutable attributes
on the session object. -/
structure Session where
  run : Tensor → Tensor → Tensor → Tensor → Tensor × Tensor × Tensor
  intra_op_num_threads : Nat
  inter_op_num_threads : Nat

/-- State of a `SileroVoiceActivityDetector` instance: the loaded session
and the recurrent state tensors `self._h` and `self._c`. -/
structure SileroVoiceActivityDetector where
  session : Session
  h : Tensor
  c : Tensor

/-- Embeds `SileroVoiceActivityDetector.__init__`: `session0` stands for
the session freshly returned by `onnxruntime.InferenceSession(onnx_path)`;
the two thread-count attributes are then assigned 1, and the recurrent
state is initialised to zero tensors of shape (2,1,64), dtype float32. -/
def SileroVoiceActivityDetector.init (session0 : Session) : SileroVoiceActivityDetector :=
  { session := { session0 with intra_op_num_threads := 1, inter_op_num_threads := 1 }
    h := npZerosF32 [2, 1, 64]
    c := npZerosF32 [2, 1, 64] }

/-- Embeds `SileroVoiceActivityDetector.reset`. -/
def SileroVoiceActivityDetector.reset (s : SileroVoiceActivityDetector) :
    SileroVoiceActivityDetector :=
  { s with h := npZerosF32 [2, 1, 64], c := npZerosF32 [2, 1, 64] }

/-- Embeds the preprocessing pipeline of `SileroVoiceActivityDetector.__call__`
up to the `input` entry of `ort_inputs`:
`np.frombuffer(audio, dtype=np.int16).astype(np.float32) / 32767.0`,
the conditional `np.expand_dims(audio_array, 0)` when the array is rank 1,
and the final `.astype(np.float32)` in the `ort_inputs` dict. -/
def sileroEngineInput (audio : List (Fin 256)) : Except VadError Tensor := do
  let audio_array := ((← npFrombufferInt16 audio).astypeFloat32).divScalar 32767
  let audio_array :=
    if audio_array.shape.length = 1 then audio_array.expandDims0 else audio_array
  Except.ok audio_array.astypeFloat32

/-- Embeds `SileroVoiceActivityDetector.__call__`: preprocess the frame,
run the session on the four named inputs, store the second and third
outputs as the new `h` and `c`, and return the squeezed first output. -/
def SileroVoiceActivityDetector.call (s : SileroVoiceActivityDetector)
    (audio : List (Fin 256)) :
    Except VadError (Tensor × SileroVoiceActivityDetector) := do
  let input ← sileroEngineInput audio
  let ortOuts := s.session.run input s.h s.c srTensor
  Except.ok (ortOuts.1.squeeze, { s with h := ortOuts.2.1, c := ortOuts.2.2 })

/-- Feeds a list of frames through the detector in order, collecting the
returned probability tensors; a raised error aborts the sequence, as an
exception would in the original. -/
def SileroVoiceActivityDetector.runSeq :
    SileroVoiceActivityDetector → List (List (Fin 256)) →
    Except VadError (List Tensor × SileroVoiceActivityDetector)
  | s, [] => Except.ok ([], s)
  | s, f :: fs => do
      let (o, s1) ← s.call f
      let (os, s2) ← s1.runSeq fs
      Except.ok (o :: os, s2)

/-- The webrtcvad classifier object, an external collaborator: an
aggressiveness mode (set through `set_mode`) and an abstract
mode-dependent speech judgement over the raw bytes and sample rate. -/
structure Vad where
  mode : Nat
  judge : Nat → List (Fin 256) → Nat → Bool

/-- Embeds `vad.set_mode(mode)`. -/
def Vad.set_mode (v : Vad) (m : Nat) : Vad :=
  { v with mode := m }

/-- Embeds `vad.is_speech(audio, rate)`. -/
def Vad.is_speech (v : Vad) (audio : List (Fin 256)) (rate : Nat) : Bool :=
  v.judge v.mode audio rate

/-- State of a `WebrtcVoiceActivityDetector` instance. -/
structure WebrtcVoiceActivityDetector where
  vad : Vad

/-- Embeds `WebrtcVoiceActivityDetector.__init__`: `v` stands for the
fresh classifier returned by `webrtcvad.Vad()`, whose mode is then set. -/
def WebrtcVoiceActivityDetector.init (v : Vad) (mode : Nat) :
    WebrtcVoiceActivityDetector :=
  ⟨v.set_mode mode⟩

/-- Embeds `WebrtcVoiceActivityDetector.__call__`. -/
def WebrtcVoiceActivityDetector.call (w : WebrtcVoiceActivityDetector)
    (audio : List (Fin 256)) : ℚ :=
  if w.vad.is_speech audio _RATE then 1 else 0

/-- Embeds the `reset` inherited from the abstract base class
`VoiceActivityDetector`, whose body is `pass`: a no-op. -/
def WebrtcVoiceActivityDetector.reset (w : WebrtcVoiceActivityDetector) :
    WebrtcVoiceActivityDetector :=
  w

def constSession : Session :=
  ⟨fun _ _ _ _ => (⟨DType.float32, [1, 1], [1/2]⟩, npZerosF32 [2, 1, 64], npZerosF32 [2, 1, 64]), 0, 0⟩

def constSilero : SileroVoiceActivityDetector :=
  SileroVoiceActivityDetector.init constSession

theorem sileroEngineInput_eq_of_even (audio : List (Fin 256))
    (heven : audio.length % 2 = 0) :
    sileroEngineInput audio =
      Except.ok ⟨DType.float32, [1, audio.length / 2],
        (decodeInt16 audio).map (fun z => (z : ℚ) / 32767)⟩ := by
  simp [sileroEngineInput, npFrombufferInt16, heven, Tensor.astypeFloat32,
    Tensor.divScalar, Tensor.expandDims0, List.map_map, Bind.bind, Except.bind]

theorem silero_call_eq_of_even (s : SileroVoiceActivityDetector)
    (audio : List (Fin 256)) (heven : audio.length % 2 = 0) :
    s.call audio =
      (let input : Tensor :=
        ⟨DType.float32, [1, audio.length / 2],
          (decodeInt16 audio).map (fun z => (z : ℚ) / 32767)⟩
      let r := s.session.run input s.h s.c ⟨DType.int64, [], [16000]⟩
      Except.ok (r.1.squeeze, ⟨s.session, r.2.1, r.2.2⟩)) := by
  simp [SileroVoiceActivityDetector.call, sileroEngineInput, npFrombufferInt16,
    heven, Tensor.astypeFloat32, Tensor.divScalar, Tensor.expandDims0,
    List.map_map, srTensor, _RATE, Bind.bind, Except.bind]

theorem silero_call_eq_of_odd (s : SileroVoiceActivityDetector)
    (audio : List (Fin 256)) (hodd : audio.length % 2 = 1) :
    s.call audio = Except.error VadError.MalformedAudioFrame := by
  simp [SileroVoiceActivityDetector.call, sileroEngineInput, npFrombufferInt16,
    hodd, Bind.bind, Except.bind]

theorem silero_call_session_eq (s : SileroVoiceActivityDetector)
    (audio : List (Fin 256)) (out : Tensor) (s1 : SileroVoiceActivityDetector)
    (hcall : s.call audio = Except.ok (out, s1)) : s1.session = s.session := by
  rcases Nat.mod_two_eq_zero_or_one audio.length with h | h
  · rw [silero_call_eq_of_even s audio h] at hcall
    simp at hcall
    rw [← hcall.2]
  · rw [silero_call_eq_of_odd s audio h] at hcall
    exact absurd hcall (by simp)

theorem silero_runSeq_session_eq (frames : List (List (Fin 256))) :
    ∀ (s : SileroVoiceActivityDetector) (outs : List Tensor)
      (s1 : SileroVoiceActivityDetector),
      SileroVoiceActivityDetector.runSeq s frames = Except.ok (outs, s1) →
      s1.session = s.session := by
  induction frames with
  | nil =>
      intro s outs s1 hrun
      simp [SileroVoiceActivityDetector.runSeq] at hrun
      rw [← hrun.2]
  | cons f fs ih =>
      intro s outs s1 hrun
      simp [SileroVoiceActivityDetector.runSeq, Bind.bind, Except.bind] at hrun
      rcases hcall : s.call f with e | p
      · rw [hcall] at hrun; exact absurd hrun (by simp)
      · rw [hcall] at hrun
        simp only [] at hrun
        rcases hrest : p.2.runSeq fs with e2 | q
        · rw [hrest] at hrun; exact absurd hrun (by simp)
        · rw [hrest] at hrun
          simp at hrun
          have h1 := silero_call_session_eq s f p.1 p.2 (by rw [hcall])
          have h2 := ih p.2 q.1 q.2 (by rw [hrest])
          rw [← hrun.2, h2, h1]

/-- C1: for every valid frame (even byte length), detect on the Silero
detector returns a value all of whose entries lie in [0,1] whenever the
wrapped inference engine emits probabilities in [0,1] (its documented
contract), and detect on the webrtc detector always returns a value in
[0,1]. -/
theorem vad_detect_prob_in_unit_interval :
    (∀ (s : SileroVoiceActivityDetector),
        (∀ i hh cc sr, ∀ x ∈ (s.session.run i hh cc sr).1.data, 0 ≤ x ∧ x ≤ 1) →
        ∀ (audio : List (Fin 256)) (out : Tensor) (s1 : SileroVoiceActivityDetector),
          s.call audio = Except.ok (out, s1) → ∀ x ∈ out.data, 0 ≤ x ∧ x ≤ 1) ∧
    (∀ (w : WebrtcVoiceActivityDetector) (audio : List (Fin 256)),
        0 ≤ w.call audio ∧ w.call audio ≤ 1) := by
  constructor
  · intro s hgood audio out s1 hcall
    rcases Nat.mod_two_eq_zero_or_one audio.length with h | h
    · rw [silero_call_eq_of_even s audio h] at hcall
      simp at hcall
      intro x hx
      rw [← hcall.1] at hx
      exact hgood _ _ _ _ x hx
    · rw [silero_call_eq_of_odd s audio h] at hcall
      exact absurd hcall (by simp)
  · intro w audio
    unfold WebrtcVoiceActivityDetector.call
    by_cases h : w.vad.is_speech audio _RATE <;> simp [h]

theorem vad_detect_prob_in_unit_interval_witness :
    0 ≤ (1/2 : ℚ) ∧ (1/2 : ℚ) ≤ 1 :=
  vad_detect_prob_in_unit_interval.1 constSilero
    (by
      intro i hh cc sr x hx
      simp [constSession, constSilero, SileroVoiceActivityDetector.init] at hx
      rw [hx]
      norm_num)
    [] ⟨DType.float32, [], [1/2]⟩
    ⟨constSilero.session, npZerosF32 [2, 1, 64], npZerosF32 [2, 1, 64]⟩
    rfl (1/2) (by simp)

/-- C2: the Silero preprocessing divides every decoded 16-bit sample by
exactly 32767; for the frame holding the single sample -32768 (bytes
0x00 0x80) the normalized value is -32768/32767, strictly below -1. -/
theorem silero_normalization_divisor_32767 :
    (∀ (audio : List (Fin 256)), audio.length % 2 = 0 →
        sileroEngineInput audio =
          Except.ok ⟨DType.float32, [1, audio.length / 2],
            (decodeInt16 audio).map (fun z => (z : ℚ) / 32767)⟩) ∧
    decodeInt16 [(0 : Fin 256), (128 : Fin 256)] = [-32768] ∧
    sileroEngineInput [(0 : Fin 256), (128 : Fin 256)] =
      Except.ok ⟨DType.float32, [1, 1], [(-32768 : ℚ) / 32767]⟩ ∧
    (-32768 : ℚ) / 32767 < -1 := by
  refine ⟨sileroEngineInput_eq_of_even, by decide, ?_, by norm_num⟩
  have h := sileroEngineInput_eq_of_even [(0 : Fin 256), (128 : Fin 256)] (by decide)
  have hv : ((128 : Fin 256) : ℕ) = 128 := by decide
  have hz : ((0 : Fin 256) : ℕ) = 0 := by decide
  rw [h]
  norm_num [decodeInt16, int16OfPair, hv, hz]

theorem silero_normalization_divisor_32767_witness :
    sileroEngineInput [(0 : Fin 256), (128 : Fin 256)] =
      Except.ok ⟨DType.float32, [1, 1], [(-32768 : ℚ) / 32767]⟩ := by
  have h := silero_normalization_divisor_32767.1 [(0 : Fin 256), (128 : Fin 256)] (by decide)
  have hv : ((128 : Fin 256) : ℕ) = 128 := by decide
  have hz : ((0 : Fin 256) : ℕ) = 0 := by decide
  rw [h]
  norm_num [decodeInt16, int16OfPair, hv, hz]

/-- C3: for every even-length frame, the Silero detect adds a leading
batch dimension to the rank-1 normalized samples, invokes the engine
with the four inputs input (float32 batched samples), h, c, and sr (the
int64 scalar 16000), stores the second and third engine outputs as the
new h and c, and returns the first output with singleton dimensions
removed. -/
theorem silero_call_engine_invocation (s : SileroVoiceActivityDetector)
    (audio : List (Fin 256)) (heven : audio.length % 2 = 0) :
    s.call audio =
      (let input : Tensor :=
        ⟨DType.float32, [1, audio.length / 2],
          (decodeInt16 audio).map (fun z => (z : ℚ) / 32767)⟩
      let r := s.session.run input s.h s.c ⟨DType.int64, [], [16000]⟩
      Except.ok (r.1.squeeze, ⟨s.session, r.2.1, r.2.2⟩)) :=
  silero_call_eq_of_even s audio heven

theorem silero_call_engine_invocation_witness :
    constSilero.call [(0 : Fin 256), (128 : Fin 256)] =
      Except.ok ((⟨DType.float32, [], [1/2]⟩ : Tensor),
        (⟨constSilero.session, npZerosF32 [2, 1, 64], npZerosF32 [2, 1, 64]⟩ :
          SileroVoiceActivityDetector)) := by
  have h := silero_call_engine_invocation constSilero
    [(0 : Fin 256), (128 : Fin 256)] (by decide)
  rw [h]
  rfl

/-- C4: the recurrent state tensors h and c have shape (2,1,64) and
dtype float32 after construction, after reset, and after every detect
call, the last given the engine contract that its returned state
outputs have that shape and dtype. -/
theorem silero_state_shape_invariant :
    (∀ (s0 : Session),
        ((SileroVoiceActivityDetector.init s0).h.shape = [2, 1, 64] ∧
          (SileroVoiceActivityDetector.init s0).h.dtype = DType.float32) ∧
        ((SileroVoiceActivityDetector.init s0).c.shape = [2, 1, 64] ∧
          (SileroVoiceActivityDetector.init s0).c.dtype = DType.float32)) ∧
    (∀ (s : SileroVoiceActivityDetector),
        (s.reset.h.shape = [2, 1, 64] ∧ s.reset.h.dtype = DType.float32) ∧
        (s.reset.c.shape = [2, 1, 64] ∧ s.reset.c.dtype = DType.float32)) ∧
    (∀ (s : SileroVoiceActivityDetector),
        (∀ i hh cc sr,
            ((s.session.run i hh cc sr).2.1.shape = [2, 1, 64] ∧
              (s.session.run i hh cc sr).2.1.dtype = DType.float32) ∧
            ((s.session.run i hh cc sr).2.2.shape = [2, 1, 64] ∧
              (s.session.run i hh cc sr).2.2.dtype = DType.float32)) →
        ∀ (audio : List (Fin 256)) (out : Tensor) (s1 : SileroVoiceActivityDetector),
          s.call audio = Except.ok (out, s1) →
          (s1.h.shape = [2, 1, 64] ∧ s1.h.dtype = DType.float32) ∧
          (s1.c.shape = [2, 1, 64] ∧ s1.c.dtype = DType.float32)) := by
  refine ⟨fun s0 => ⟨⟨rfl, rfl⟩, ⟨rfl, rfl⟩⟩, fun s => ⟨⟨rfl, rfl⟩, ⟨rfl, rfl⟩⟩, ?_⟩
  intro s hgood audio out s1 hcall
  rcases Nat.mod_two_eq_zero_or_one audio.length with h | h
  · rw [silero_call_eq_of_even s audio h] at hcall
    simp at hcall
    rw [← hcall.2]
    exact hgood _ _ _ _
  · rw [silero_call_eq_of_odd s audio h] at hcall
    exact absurd hcall (by simp)

theorem silero_state_shape_invariant_witness :
    ((npZerosF32 [2, 1, 64]).shape = [2, 1, 64] ∧
      (npZerosF32 [2, 1, 64]).dtype = DType.float32) ∧
    ((npZerosF32 [2, 1, 64]).shape = [2, 1, 64] ∧
      (npZerosF32 [2, 1, 64]).dtype = DType.float32) :=
  silero_state_shape_invariant.2.2 constSilero
    (fun _ _ _ _ => ⟨⟨rfl, rfl⟩, ⟨rfl, rfl⟩⟩)
    [] ⟨DType.float32, [], [1/2]⟩
    ⟨constSilero.session, npZerosF32 [2, 1, 64], npZerosF32 [2, 1, 64]⟩ rfl

/-- C5: reset reassigns h and c to fresh all-zero (2,1,64) float32
tensors, the same values as at construction, leaving the session (and
everything else) unchanged. -/
theorem silero_reset_zeroes_state (s : SileroVoiceActivityDetector) :
    s.reset = ⟨s.session, npZerosF32 [2, 1, 64], npZerosF32 [2, 1, 64]⟩ ∧
    s.reset.h = (SileroVoiceActivityDetector.init s.session).h ∧
    s.reset.c = (SileroVoiceActivityDetector.init s.session).c ∧
    s.reset.session = s.session :=
  ⟨rfl, rfl, rfl, rfl⟩

/-- C6: with the engine modelled as a function (deterministic), running
reset and then a frame sequence, twice in a row, produces the same
output sequence and the same end state both times. -/
theorem silero_reset_replay_deterministic (s : SileroVoiceActivityDetector)
    (frames : List (List (Fin 256))) (outs : List Tensor)
    (s1 : SileroVoiceActivityDetector)
    (hrun : SileroVoiceActivityDetector.runSeq s.reset frames = Except.ok (outs, s1)) :
    SileroVoiceActivityDetector.runSeq s1.reset frames = Except.ok (outs, s1) := by
  have hsess : s1.session = s.reset.session :=
    silero_runSeq_session_eq frames s.reset outs s1 hrun
  have hres : s1.reset = s.reset := by
    unfold SileroVoiceActivityDetector.reset
    rw [hsess]
    rfl
  rw [hres]
  exact hrun

theorem silero_reset_replay_deterministic_witness :
    SileroVoiceActivityDetector.runSeq
        (SileroVoiceActivityDetector.reset
          ⟨constSilero.session, npZerosF32 [2, 1, 64], npZerosF32 [2, 1, 64]⟩)
        [[]] =
      Except.ok ([⟨DType.float32, [], [1/2]⟩],
        ⟨constSilero.session, npZerosF32 [2, 1, 64], npZerosF32 [2, 1, 64]⟩) :=
  silero_reset_replay_deterministic constSilero [[]]
    [⟨DType.float32, [], [1/2]⟩]
    ⟨constSilero.session, npZerosF32 [2, 1, 64], npZerosF32 [2, 1, 64]⟩ rfl

/-- C7: a buffer of odd byte length makes detect fail with
MalformedAudioFrame when the buffer is interpreted as 16-bit samples (the
decoding path of the Silero detector); no updated state is produced. -/
theorem silero_odd_length_malformed (s : SileroVoiceActivityDetector)
    (audio : List (Fin 256)) (hodd : audio.length % 2 = 1) :
    s.call audio = Except.error VadError.MalformedAudioFrame :=
  silero_call_eq_of_odd s audio hodd

theorem silero_odd_length_malformed_witness :
    constSilero.call [(0 : Fin 256)] = Except.error VadError.MalformedAudioFrame :=
  silero_odd_length_malformed constSilero [(0 : Fin 256)] (by decide)

/-- C8: the webrtc detect delegates the raw bytes and the fixed rate
16000 to the wrapped classifier, returns exactly 1.0 when it reports
speech and exactly 0.0 otherwise (never any other value), and its reset
is a no-op. -/
theorem webrtc_detect_binary_delegation (w : WebrtcVoiceActivityDetector)
    (audio : List (Fin 256)) :
    w.call audio = (if w.vad.is_speech audio 16000 then (1 : ℚ) else 0) ∧
    (w.call audio = 1 ∨ w.call audio = 0) ∧
    w.reset = w := by
  refine ⟨rfl, ?_, rfl⟩
  unfold WebrtcVoiceActivityDetector.call
  by_cases h : w.vad.is_speech audio _RATE <;> simp [h]

/-- C9: construction assigns 1 to both thread-count attributes of the
session, and every subsequent detect call leaves the session unchanged,
so each call runs on the session so configured. -/
theorem silero_session_single_threaded (s0 : Session) :
    (SileroVoiceActivityDetector.init s0).session.intra_op_num_threads = 1 ∧
    (SileroVoiceActivityDetector.init s0).session.inter_op_num_threads = 1 ∧
    ∀ (frames : List (List (Fin 256))) (outs : List Tensor)
      (s1 : SileroVoiceActivityDetector),
      SileroVoiceActivityDetector.runSeq (SileroVoiceActivityDetector.init s0) frames =
          Except.ok (outs, s1) →
      s1.session = (SileroVoiceActivityDetector.init s0).session :=
  ⟨rfl, rfl, fun frames outs s1 hrun =>
    silero_runSeq_session_eq frames (SileroVoiceActivityDetector.init s0) outs s1 hrun⟩

theorem silero_session_single_threaded_witness :
    constSilero.session.intra_op_num_threads = 1 ∧
    constSilero.session.inter_op_num_threads = 1 ∧
    (⟨constSilero.session, npZerosF32 [2, 1, 64], npZerosF32 [2, 1, 64]⟩ :
        SileroVoiceActivityDetector).session = constSilero.session :=
  ⟨(silero_session_single_threaded constSession).1,
   (silero_session_single_threaded constSession).2.1,
   (silero_session_single_threaded constSession).2.2 [[]]
     [⟨DType.float32, [], [1/2]⟩]
     ⟨constSilero.session, npZerosF32 [2, 1, 64], npZerosF32 [2, 1, 64]⟩ rfl⟩

/-- C10: an empty buffer passes the decoding step (length 0 is even),
yields an empty sample sequence, gains a batch dimension so the engine
is invoked with an input of shape (1, 0): detect does not reject
zero-length frames before the engine call. -/
theorem silero_empty_frame_ok (s : SileroVoiceActivityDetector) :
    npFrombufferInt16 [] = Except.ok ⟨DType.int16, [0], []⟩ ∧
    sileroEngineInput [] = Except.ok ⟨DType.float32, [1, 0], []⟩ ∧
    s.call [] =
      (let r := s.session.run ⟨DType.float32, [1, 0], []⟩ s.h s.c
        ⟨DType.int64, [], [16000]⟩
      Except.ok (r.1.squeeze, ⟨s.session, r.2.1, r.2.2⟩)) :=
  ⟨rfl, rfl, rfl⟩
